import Mathlib

/-!
Shallow embedding of the `fintracker` expense tracker
(`fintracker/models.py`, `fintracker/storage.py`, `fintracker/database.py`,
`fintracker/report.py`) and proofs about its storage and reporting layers.

Modelling conventions:
* Python `float` amounts are modelled as exact rationals (`Rat`); none of the
  verified statements depend on rounding behaviour.
* ISO `YYYY-MM-DD` date strings are modelled as a `Date` structure of numeric
  fields.  For well-formed zero-padded four-digit-year strings, string
  equality coincides with `Date` equality and lexicographic string comparison
  coincides with comparison of `Date.key`.
* Python `datetime.date` subtraction `(a - b).days` is modelled as the
  difference of civil day numbers (`Date.toDays`).
* Code that raises is modelled with `Except`; a caught exception shows up as
  the handler's result.  I/O faults injected by the environment are modelled
  by an explicit `WriteOutcome` argument.
* SQLite queries are modelled on the list of stored rows: `WHERE` is
  `List.filter`, `ORDER BY` is a stable sort (`List.insertionSort`) by the
  corresponding comparator (SQL leaves the relative order of ties
  unspecified; every verified statement below is insensitive to the
  tie-breaking choice), and `GROUP BY c.id, c.name` over the category table
  is a map over the category list (faithful when categories are pairwise
  distinct, which the seeded store guarantees — categories are never created
  or deleted).
-/

namespace Fintracker

/-- Calendar date, the model of the ISO `YYYY-MM-DD` strings stored by the
program. -/
structure Date where
  year : Nat
  month : Nat
  day : Nat
  deriving DecidableEq, Repr

/-- Civil day number of a date (days since 0000-03-01, proleptic Gregorian),
the standard era-based calendar computation.  This embeds Python
`datetime.date` subtraction: `(a - b).days` is `a.toDays - b.toDays`. -/
def Date.toDays (d : Date) : Nat :=
  let y := if d.month ≤ 2 then d.year - 1 else d.year
  let era := y / 400
  let yoe := y % 400
  let mp := (d.month + 9) % 12
  let doy := (153 * mp + 2) / 5 + d.day - 1
  let doe := yoe * 365 + yoe / 4 - yoe / 100 + doy
  era * 146097 + doe

/-- Day difference `(a - b).days` of Python date subtraction. -/
def Date.daysDiff (a b : Date) : Int :=
  (a.toDays : Int) - (b.toDays : Int)

/-- Numeric key whose order coincides with lexicographic comparison of the
zero-padded ISO date strings (used by the SQL `ORDER BY e.date`). -/
def Date.key (d : Date) : Nat :=
  d.year * 10000 + d.month * 100 + d.day

/-- Model of `fintracker.models.Category`. -/
structure Category where
  id : Int
  name : String
  deriving DecidableEq, Repr

/-- Model of `fintracker.models.Expense`. -/
structure Expense where
  id : Int
  category_id : Int
  amount : Rat
  description : String
  date : Date
  deriving DecidableEq, Repr

/-- The five period keywords accepted by the listing and reporting code. -/
inductive Period where
  | day
  | week
  | month
  | year
  | all
  deriving DecidableEq, Repr

/-- Values stored in the generic dictionary representation used by
`to_dict` / `from_dict` (a date value stands for the ISO date string, which
the Python code passes through unparsed). -/
inductive Value where
  | vInt (i : Int)
  | vRat (q : Rat)
  | vStr (s : String)
  | vDate (d : Date)
  deriving DecidableEq, Repr

/-- A Python dictionary with string keys, as an association list. -/
abbrev Dict := List (String × Value)

/-- Dictionary lookup (`data['k']`); `none` models a `KeyError`. -/
def dictGet (d : Dict) (k : String) : Option Value :=
  (d.find? (fun p => p.1 == k)).map (fun p => p.2)

/-- Embedding of `Category.to_dict`. -/
def Category.to_dict (c : Category) : Dict :=
  [("id", Value.vInt c.id), ("name", Value.vStr c.name)]

/-- Embedding of `Category.from_dict`; `none` models a `KeyError` or a value
of an unexpected shape. -/
def Category.from_dict (d : Dict) : Option Category :=
  match dictGet d "id", dictGet d "name" with
  | some (Value.vInt i), some (Value.vStr n) => some ⟨i, n⟩
  | _, _ => none

/-- Embedding of `Expense.to_dict`. -/
def Expense.to_dict (e : Expense) : Dict :=
  [("id", Value.vInt e.id), ("category_id", Value.vInt e.category_id),
   ("amount", Value.vRat e.amount), ("description", Value.vStr e.description),
   ("date", Value.vDate e.date)]

/-- Embedding of `Expense.from_dict`. -/
def Expense.from_dict (d : Dict) : Option Expense :=
  match dictGet d "id", dictGet d "category_id", dictGet d "amount",
      dictGet d "description", dictGet d "date" with
  | some (Value.vInt i), some (Value.vInt c), some (Value.vRat a),
      some (Value.vStr s), some (Value.vDate dt) => some ⟨i, c, a, s, dt⟩
  | _, _, _, _, _ => none

/-- The six categories seeded by both backends
(`Storage._ensure_data_file_exists` and `Database._init_database`). -/
def initialCategories : List Category :=
  [⟨1, "Еда"⟩, ⟨2, "Транспорт"⟩, ⟨3, "Развлечения"⟩,
   ⟨4, "Коммунальные"⟩, ⟨5, "Одежда"⟩, ⟨6, "Здоровье"⟩]

/-- Contents of the JSON data file of the `Storage` backend:
`{'expenses': [...], 'categories': [...], 'next_id': n}`. -/
structure StorageData where
  expenses : List Expense
  categories : List Category
  next_id : Int
  deriving DecidableEq, Repr

/-- The initial JSON document written by `Storage._ensure_data_file_exists`. -/
def initialStorageData : StorageData :=
  { expenses := [], categories := initialCategories, next_id := 1 }

namespace Storage

/-- Embedding of `Storage._ensure_data_file_exists`: the argument is the
current file contents (`none` when the file does not exist). -/
def ensure_data_file_exists : Option StorageData → StorageData
  | none => initialStorageData
  | some s => s

/-- Outcome of the environment for one `Storage._save_data` call:
the write succeeds, `open`/`write` raises an `IOError`, or `json.dump`
raises a non-IO serialization error (e.g. `TypeError`). -/
inductive WriteOutcome where
  | ok
  | ioError
  | serError
  deriving DecidableEq, Repr

/-- Embedding of `Storage._save_data`: it catches `IOError` internally
(printing a message and returning normally, leaving the file at its previous
contents `file`); any other exception propagates to the caller.  Returns the
file contents after the call, paired with whether an exception escaped. -/
def save_data (file data : StorageData) : WriteOutcome → StorageData × Bool
  | WriteOutcome.ok => (data, false)
  | WriteOutcome.ioError => (file, false)
  | WriteOutcome.serError => (file, true)

/-- Embedding of `Storage.add_expense`.  `today` is the current local date
(used when `expense_date` is absent), `s` the loaded file contents and `w`
the environment's outcome for the `_save_data` call.  Returns the file
contents after the call and the boolean result; the surrounding
`try/except Exception` turns a propagating exception into `False`. -/
def add_expense (today : Date) (s : StorageData) (category_id : Int)
    (amount : Rat) (description : String) (expense_date : Option Date)
    (w : WriteOutcome) : StorageData × Bool :=
  let d := expense_date.getD today
  let e : Expense :=
    { id := s.next_id, category_id := category_id, amount := amount,
      description := description, date := d }
  let data : StorageData :=
    { expenses := s.expenses ++ [e], categories := s.categories,
      next_id := s.next_id + 1 }
  let r := save_data s data w
  if r.2 then (r.1, false) else (r.1, true)

/-- The per-expense period test of the loop in `Storage.get_expenses`. -/
def periodPred (today : Date) (p : Period) (e : Expense) : Bool :=
  match p with
  | Period.day => decide (e.date = today)
  | Period.week =>
      decide (0 ≤ Date.daysDiff today e.date ∧ Date.daysDiff today e.date ≤ 7)
  | Period.month =>
      decide (e.date.month = today.month ∧ e.date.year = today.year)
  | Period.year => decide (e.date.year = today.year)
  | Period.all => true

/-- Embedding of `Storage.get_expenses`: for `all` the stored list is
returned as loaded; otherwise the loop keeps the matching expenses in stored
order.  No sorting happens in this backend. -/
def get_expenses (today : Date) (s : StorageData) (p : Period) : List Expense :=
  if p = Period.all then s.expenses
  else s.expenses.filter (periodPred today p)

/-- Embedding of `Storage.get_categories`. -/
def get_categories (s : StorageData) : List Category :=
  s.categories

/-- Embedding of `Storage.delete_expense`: keeps the records whose id
differs, saves only when the list shrank, and reports whether it shrank. -/
def delete_expense (s : StorageData) (expense_id : Int) : StorageData × Bool :=
  let remaining := s.expenses.filter (fun e => e.id ≠ expense_id)
  if remaining.length < s.expenses.length then
    ({ expenses := remaining, categories := s.categories,
       next_id := s.next_id }, true)
  else (s, false)

end Storage

/-- Rows of the two tables of the SQLite backend. -/
structure DbData where
  categories : List Category
  expenses : List Expense
  deriving DecidableEq, Repr

/-- The order of the SQL `ORDER BY e.date DESC, e.id DESC` (also the order
the specification requires of listings: descending by date, ties broken by
descending id): a row may precede another exactly when its (date, id) pair
is lexicographically at least the other's. -/
def dateIdDesc (a b : Expense) : Prop :=
  b.date.key < a.date.key ∨ (b.date.key = a.date.key ∧ b.id ≤ a.id)

instance : DecidableRel dateIdDesc := fun a b => by
  unfold dateIdDesc; infer_instance

instance : IsTrans Expense dateIdDesc :=
  ⟨fun _ _ _ hab hbc => by unfold dateIdDesc at *; omega⟩

instance : IsTotal Expense dateIdDesc :=
  ⟨fun a b => by unfold dateIdDesc; omega⟩

/-- One row of the `Database.get_category_stats` result. -/
structure StatRow where
  category_id : Int
  category_name : String
  transaction_count : Nat
  total_amount : Rat
  deriving DecidableEq, Repr

/-- The order of `ORDER BY total_amount DESC` (descending by total). -/
def totalDesc (a b : StatRow) : Prop :=
  b.total_amount ≤ a.total_amount

instance : DecidableRel totalDesc := fun a b => by
  unfold totalDesc; infer_instance

instance : IsTrans StatRow totalDesc :=
  ⟨fun _ _ _ hab hbc => le_trans hbc hab⟩

instance : IsTotal StatRow totalDesc :=
  ⟨fun a b => le_total b.total_amount a.total_amount⟩

namespace Database

/-- Embedding of `Database._init_database`: `CREATE TABLE IF NOT EXISTS` is a
no-op on an existing database (`none` models a missing database file, which
SQLite creates with both tables empty); the six fixed categories are inserted
exactly when `SELECT COUNT(*) FROM categories` returns 0. -/
def init_database : Option DbData → DbData
  | none => { categories := initialCategories, expenses := [] }
  | some d =>
      if d.categories.length = 0 then
        { categories := initialCategories, expenses := d.expenses }
      else d

/-- Embedding of the query of `Database.get_expenses`, up to the surrounding
exception handler.  The `week` branch evaluates
`(today - date.today().replace(day=today.day - 7)).isoformat()`, which always
raises — `datetime.timedelta` has no `isoformat` attribute (and when
`today.day ≤ 7` the `replace` call already raises `ValueError`) — so it is an
error for every input. -/
def get_expenses_query (today : Date) (d : DbData) :
    Period → Except Unit (List Expense)
  | Period.day =>
      Except.ok (List.insertionSort dateIdDesc
        (d.expenses.filter (fun e => decide (e.date = today))))
  | Period.week => Except.error ()
  | Period.month =>
      Except.ok (List.insertionSort dateIdDesc (d.expenses.filter
        (fun e => decide (e.date.year = today.year ∧ e.date.month = today.month))))
  | Period.year =>
      Except.ok (List.insertionSort dateIdDesc (d.expenses.filter
        (fun e => decide (e.date.year = today.year))))
  | Period.all => Except.ok (List.insertionSort dateIdDesc d.expenses)

/-- Embedding of `Database.get_expenses`: the `except Exception` handler
turns any raised error into an empty result. -/
def get_expenses (today : Date) (d : DbData) (p : Period) : List Expense :=
  match get_expenses_query today d p with
  | Except.ok l => l
  | Except.error _ => []

/-- Embedding of `Database.get_categories` (`ORDER BY id`, ascending). -/
def get_categories (d : DbData) : List Category :=
  List.insertionSort (fun a b => a.id ≤ b.id) d.categories

/-- Embedding of `Database.delete_expense`: `DELETE FROM expenses WHERE
id = ?`, returning whether `rowcount > 0`. -/
def delete_expense (d : DbData) (expense_id : Int) : DbData × Bool :=
  let remaining := d.expenses.filter (fun e => e.id ≠ expense_id)
  ({ categories := d.categories, expenses := remaining },
   decide (remaining.length < d.expenses.length))

/-- The extra date condition appended to the `LEFT JOIN ... ON` clause of
`Database.get_category_stats`.  Only `month` and `year` append a condition:
`day` is absent from the `elif` chain and the `week` branch is a literal
`pass`, so for `day`, `week` and `all` every expense row joins. -/
def statsDatePred (today : Date) : Period → Expense → Bool
  | Period.month =>
      fun e => decide (e.date.year = today.year ∧ e.date.month = today.month)
  | Period.year => fun e => decide (e.date.year = today.year)
  | _ => fun _ => true

/-- Embedding of `Database.get_category_stats`: one aggregate row per stored
category (`LEFT JOIN` + `GROUP BY c.id, c.name`; `COUNT(e.id)` counts the
joined expense rows and `COALESCE(SUM(e.amount), 0)` their amounts), then
`HAVING total_amount > 0` and `ORDER BY total_amount DESC`. -/
def get_category_stats (today : Date) (d : DbData) (p : Period) : List StatRow :=
  let rows := d.categories.map (fun c =>
    let es := d.expenses.filter
      (fun e => decide (e.category_id = c.id) && statsDatePred today p e)
    { category_id := c.id, category_name := c.name,
      transaction_count := es.length,
      total_amount := (es.map (fun e => e.amount)).sum : StatRow })
  List.insertionSort totalDesc (rows.filter (fun r => decide (0 < r.total_amount)))

end Database

/-- One entry of the `categories` list of a generated report. -/
structure ReportEntry where
  category_name : String
  amount : Rat
  transaction_count : Nat
  deriving DecidableEq, Repr

/-- A generated report.  The wall-clock `generated_at` timestamp of the
Python dictionary is omitted: no verified statement concerns it. -/
structure Report where
  period : Period
  total_expenses : Rat
  categories : List ReportEntry
  deriving DecidableEq, Repr

namespace ReportGenerator

/-- The merged per-category accumulator of the two Python dictionaries
`category_totals` (amount, name) and `category_counts` of
`ReportGenerator.generate_category_report`; both are keyed by category id
with keys inserted in the same order, so one association list of triples is
a faithful joint model. -/
structure CatAcc where
  amount : Rat
  name : String
  count : Nat
  deriving DecidableEq, Repr

/-- Python dictionary assignment `d[k] = v`: overwriting keeps the key's
position, a new key is appended (insertion order). -/
def dictInsert (d : List (Int × CatAcc)) (k : Int) (v : CatAcc) :
    List (Int × CatAcc) :=
  if d.any (fun p => p.1 = k) then
    d.map (fun p => if p.1 = k then (p.1, v) else p)
  else d ++ [(k, v)]

/-- The expense-accumulation step of the report loop: add the amount and
bump the count at the expense's category key. -/
def dictAdd (d : List (Int × CatAcc)) (k : Int) (amt : Rat) :
    List (Int × CatAcc) :=
  d.map (fun p =>
    if p.1 = k then (p.1, ⟨p.2.amount + amt, p.2.name, p.2.count + 1⟩) else p)

/-- One iteration of the category-initialisation loop
(`category_totals[category.id] = {'amount': 0, 'name': category.name}` and
`category_counts[category.id] = 0`). -/
def categoryStep (d : List (Int × CatAcc)) (c : Category) : List (Int × CatAcc) :=
  dictInsert d c.id ⟨0, c.name, 0⟩

/-- One iteration of the expense loop: `if cat_id in category_totals` add
the amount and bump the count, otherwise skip the expense silently. -/
def expenseStep (d : List (Int × CatAcc)) (e : Expense) : List (Int × CatAcc) :=
  if d.any (fun p => p.1 = e.category_id) then dictAdd d e.category_id e.amount
  else d

/-- The accumulator after the two loops of
`ReportGenerator.generate_category_report`: first every category is inserted
with amount 0 and count 0, then every expense whose `category_id` is a
present key adds its amount and bumps the count. -/
def reportTotals (expenses : List Expense) (categories : List Category) :
    List (Int × CatAcc) :=
  expenses.foldl expenseStep (categories.foldl categoryStep [])

/-- Repeated application of the expense-accumulation step to one entry:
add each amount and bump the count once per expense (used to characterise
the loop). -/
def accAdd (a : CatAcc) (l : List Expense) : CatAcc :=
  l.foldl (fun a e => ⟨a.amount + e.amount, a.name, a.count + 1⟩) a

/-- Embedding of `ReportGenerator.generate_category_report` (fault-free
path).  `expenses` and `categories` are the lists the storage returned for
the requested period; `total_expenses` sums every accumulator entry, while
the `categories` list keeps only entries with positive amount, in dictionary
(= stored category) order. -/
def generate_category_report (expenses : List Expense)
    (categories : List Category) (p : Period) : Report :=
  let totals := reportTotals expenses categories
  { period := p
  , total_expenses := (totals.map (fun q => q.2.amount)).sum
  , categories :=
      (totals.filter (fun q => decide (0 < q.2.amount))).map
        (fun q => ⟨q.2.name, q.2.amount, q.2.count⟩) }

/-- One cell written by the CSV writer. -/
inductive Cell where
  | cStr (v : String)
  | cRat (v : Rat)
  | cNat (v : Nat)
  deriving DecidableEq, Repr

/-- Embedding of the `.csv` branch of
`ReportGenerator._save_report_to_file`: the sequence of `writer.writerow`
calls, in order — header, one row per report entry (built by a loop that
appends one row per entry), an empty row, and the summary row. -/
def save_report_csv_rows (r : Report) : List (List Cell) :=
  let rows := [[Cell.cStr "Категория", Cell.cStr "Сумма расходов",
    Cell.cStr "Количество операций"]]
  let rows := r.categories.foldl
    (fun acc c =>
      acc ++ [[Cell.cStr c.category_name, Cell.cRat c.amount,
        Cell.cNat c.transaction_count]])
    rows
  rows ++ [[], [Cell.cStr "Итого расходы:", Cell.cRat r.total_expenses]]

end ReportGenerator

namespace Spec

/-- The group-by-sum reference row of the specification: for a category, the
number and amount-sum of the expenses referencing it. -/
def statRow (expenses : List Expense) (c : Category) : StatRow :=
  let es := expenses.filter (fun e => decide (e.category_id = c.id))
  { category_id := c.id, category_name := c.name,
    transaction_count := es.length,
    total_amount := (es.map (fun e => e.amount)).sum }

/-- The report entry the specification's group-by-sum assigns a category. -/
def reportEntry (expenses : List Expense) (c : Category) : ReportEntry :=
  let es := expenses.filter (fun e => decide (e.category_id = c.id))
  { category_name := c.name, amount := (es.map (fun e => e.amount)).sum,
    transaction_count := es.length }

/-- Whether a category has at least one matching expense. -/
def hasExpense (expenses : List Expense) (c : Category) : Bool :=
  expenses.any (fun e => decide (e.category_id = c.id))

/-- The period filter of the specification (§4.1): `day` is today exactly,
`week` is the backward window of 0–7 days inclusive of today, `month` and
`year` are the calendar month/year of today, `all` keeps everything. -/
def matchesPeriod (today : Date) : Period → Expense → Bool
  | Period.day => fun e => decide (e.date = today)
  | Period.week => fun e =>
      decide (0 ≤ Date.daysDiff today e.date ∧ Date.daysDiff today e.date ≤ 7)
  | Period.month => fun e =>
      decide (e.date.month = today.month ∧ e.date.year = today.year)
  | Period.year => fun e => decide (e.date.year = today.year)
  | Period.all => fun _ => true

/-- Descending order by amount for report entries (the order the claim
requires of the report's category list). -/
def entryAmountDesc (a b : ReportEntry) : Prop :=
  b.amount ≤ a.amount

instance : DecidableRel entryAmountDesc := fun a b => by
  unfold entryAmountDesc; infer_instance

end Spec

/-- A fixed current date used by the concrete scenarios below. -/
def exToday : Date := ⟨2024, 5, 15⟩

/-- A concrete expense dated today (inside every period window). -/
def exExpenseToday : Expense := ⟨1, 1, 100, "groceries", exToday⟩

/-- A concrete expense dated 2024-01-01 (same year, outside the week and
month windows of `exToday`). -/
def exExpenseJan : Expense := ⟨2, 1, 50, "metro", ⟨2024, 1, 1⟩⟩

/-- A concrete JSON store holding the two expenses above, oldest date first
(the stored order after adding them in that order). -/
def exStorage : StorageData := ⟨[exExpenseJan, exExpenseToday], initialCategories, 3⟩

/-- A concrete SQLite store holding the two expenses above. -/
def exDb : DbData := ⟨initialCategories, [exExpenseJan, exExpenseToday]⟩

/-- A concrete expense of amount 10 in category 1. -/
def exExpenseFood : Expense := ⟨1, 1, 10, "bread", ⟨2024, 5, 1⟩⟩

/-- A concrete expense of amount 20 in category 2 (larger total than
category 1, so a descending-by-total order must list it first). -/
def exExpenseTransport : Expense := ⟨2, 2, 20, "taxi", ⟨2024, 5, 2⟩⟩

/-- Deleting by id shrinks the list exactly when an expense with that id is
present. -/
theorem length_filter_ne_lt_iff (l : List Expense) (i : Int) :
    (l.filter (fun e => e.id ≠ i)).length < l.length ↔ ∃ e ∈ l, e.id = i := by
  rw [List.length_filter_lt_length_iff_exists]
  simp

/-- Every expense of a `Storage.get_expenses` listing comes from the stored
list. -/
theorem mem_storage_listing {today : Date} {s : StorageData} {p : Period}
    {e : Expense} (h : e ∈ Storage.get_expenses today s p) : e ∈ s.expenses := by
  unfold Storage.get_expenses at h
  split at h
  · exact h
  · exact (List.mem_filter.mp h).1

/-- Every expense of a `Database.get_expenses` listing comes from the stored
table. -/
theorem mem_db_listing {today : Date} {d : DbData} {p : Period}
    {e : Expense} (h : e ∈ Database.get_expenses today d p) : e ∈ d.expenses := by
  unfold Database.get_expenses Database.get_expenses_query at h
  cases p <;> simp_all [List.mem_insertionSort, List.mem_filter]

/-- C5: for every stored state and id, `delete_expense` (both backends)
returns true exactly when an expense with that id is present, the deleted id
is absent from every subsequent listing, and deleting id 999 on an empty
store returns false. -/
theorem c5_delete_present_iff (today : Date) (s : StorageData) (d : DbData)
    (i : Int) (p : Period) :
    ((Storage.delete_expense s i).2 = true ↔ ∃ e ∈ s.expenses, e.id = i) ∧
    (∀ e ∈ Storage.get_expenses today (Storage.delete_expense s i).1 p, e.id ≠ i) ∧
    ((Database.delete_expense d i).2 = true ↔ ∃ e ∈ d.expenses, e.id = i) ∧
    (∀ e ∈ Database.get_expenses today (Database.delete_expense d i).1 p, e.id ≠ i) ∧
    (Storage.delete_expense ⟨[], initialCategories, 1⟩ 999).2 = false ∧
    (Database.delete_expense ⟨initialCategories, []⟩ 999).2 = false := by
  refine ⟨?_, ?_, ?_, ?_, by decide, by decide⟩
  · simp only [Storage.delete_expense]
    split
    next h => simpa using (length_filter_ne_lt_iff s.expenses i).mp h
    next h =>
      simp only [Bool.false_eq_true, false_iff]
      intro hex
      exact h ((length_filter_ne_lt_iff s.expenses i).mpr hex)
  · intro e he
    have he' := mem_storage_listing he
    simp only [Storage.delete_expense] at he'
    revert he'
    split
    next h =>
      intro he'
      simpa using (List.mem_filter.mp he').2
    next h =>
      intro he' hei
      exact h ((length_filter_ne_lt_iff s.expenses i).mpr ⟨e, he', hei⟩)
  · unfold Database.delete_expense
    simpa using length_filter_ne_lt_iff d.expenses i
  · intro e he
    have he' := mem_db_listing he
    unfold Database.delete_expense at he'
    simpa using (List.mem_filter.mp he').2

/-- C6: converting a `Category` or an `Expense` to its dictionary
representation and back yields the original record. -/
theorem c6_round_trip :
    (∀ c : Category, Category.from_dict c.to_dict = some c) ∧
    (∀ e : Expense, Expense.from_dict e.to_dict = some e) :=
  ⟨fun _ => rfl, fun _ => rfl⟩

/-- C3 (behaviour at the failing input): when `_save_data`'s file write
raises an `IOError`, `Storage.add_expense` swallows it and returns `true`
with the stored data unchanged (the record is lost), contradicting the
claimed `false`; only a propagating serialization error yields `false`. -/
theorem c3_add_expense_io_error (today : Date) (s : StorageData) (cid : Int)
    (amt : Rat) (desc : String) (dt : Option Date) :
    Storage.add_expense today s cid amt desc dt Storage.WriteOutcome.ioError = (s, true) ∧
    Storage.add_expense today s cid amt desc dt Storage.WriteOutcome.serError = (s, false) :=
  ⟨rfl, rfl⟩

/-- A loop that appends one element per item equals the initial segment
followed by the mapped list. -/
theorem foldl_append_singleton {α β : Type} (f : α → β) :
    ∀ (l : List α) (init : List β),
      l.foldl (fun acc c => acc ++ [f c]) init = init ++ l.map f := by
  intro l
  induction l with
  | nil => intro init; simp
  | cons x xs ih => intro init; simp [ih]

/-- C9: the CSV serialization of a report is exactly a header row, one row
per category entry (name, amount, count), a blank row, and a summary row
carrying the report's `total_expenses`. -/
theorem c9_csv_layout (r : Report) :
    ReportGenerator.save_report_csv_rows r =
      [ReportGenerator.Cell.cStr "Категория", ReportGenerator.Cell.cStr "Сумма расходов",
        ReportGenerator.Cell.cStr "Количество операций"] ::
      (r.categories.map (fun c =>
        [ReportGenerator.Cell.cStr c.category_name, ReportGenerator.Cell.cRat c.amount,
          ReportGenerator.Cell.cNat c.transaction_count]) ++
        [[], [ReportGenerator.Cell.cStr "Итого расходы:",
          ReportGenerator.Cell.cRat r.total_expenses]]) := by
  simp only [ReportGenerator.save_report_csv_rows, foldl_append_singleton]
  simp

/-- C8 (counterexample): running SQLite initialisation against an existing
database whose categories table is empty does not leave the stored data
unchanged — it re-seeds the six categories. -/
theorem c8_counterexample :
    Database.init_database (some ⟨[], [exExpenseJan]⟩) ≠
      (⟨[], [exExpenseJan]⟩ : DbData) := by
  decide

/-- C8 (amended): JSON-store initialisation leaves any existing store
unchanged and seeds a fresh one; SQLite initialisation seeds a fresh
database, leaves an existing database unchanged whenever its categories
table is nonempty (as after any initialisation, making it idempotent), and
both backends seed the same six categories with ids 1–6 and no expenses. -/
theorem c8_init_idempotent_and_seeds (s : StorageData) (d : DbData)
    (od : Option DbData) (hd : d.categories ≠ []) :
    Storage.ensure_data_file_exists (some s) = s ∧
    Storage.ensure_data_file_exists none = initialStorageData ∧
    initialStorageData.expenses = [] ∧
    initialStorageData.categories = initialCategories ∧
    Database.init_database none = ⟨initialCategories, []⟩ ∧
    Database.init_database (some d) = d ∧
    Database.init_database (some (Database.init_database od)) =
      Database.init_database od ∧
    initialCategories.map Category.id = [1, 2, 3, 4, 5, 6] ∧
    initialCategories.length = 6 := by
  refine ⟨rfl, rfl, rfl, rfl, rfl, ?_, ?_, by decide, by decide⟩
  · simp only [Database.init_database]
    rw [if_neg (fun h => hd (List.length_eq_zero.mp h))]
  · cases od with
    | none => rfl
    | some d' =>
        simp only [Database.init_database]
        by_cases h : d'.categories.length = 0 <;> simp [h]

/-- Closed instance of the C8 theorem: initialising an already-initialised
SQLite database changes nothing. -/
theorem c8_init_witness :
    Database.init_database (some ⟨initialCategories, []⟩) =
      (⟨initialCategories, []⟩ : DbData) :=
  (c8_init_idempotent_and_seeds initialStorageData ⟨initialCategories, []⟩ none
    (by decide)).2.2.2.2.2.1

/-- C2 (counterexample): the JSON backend does not sort — a store holding an
older expense before a newer one is listed in stored order, which is not
descending by date. -/
theorem c2_counterexample :
    ¬ (Storage.get_expenses exToday exStorage Period.all).Sorted dateIdDesc := by
  decide

/-- C2 (amended): `Storage.get_expenses` returns the matching expenses in
stored order, unsorted; `Database.get_expenses` returns, for every period
other than `week`, the matching expenses sorted descending by date with ties
broken by descending id, and for `week` it returns the empty list (an
internal error is swallowed, see the week-filter claim). -/
theorem c2_listing_order (today : Date) (s : StorageData) (d : DbData)
    (p : Period) :
    Storage.get_expenses today s p = s.expenses.filter (Spec.matchesPeriod today p) ∧
    (p ≠ Period.week → (Database.get_expenses today d p).Sorted dateIdDesc) ∧
    (p ≠ Period.week →
      (Database.get_expenses today d p).Perm
        (d.expenses.filter (Spec.matchesPeriod today p))) ∧
    Database.get_expenses today d Period.week = [] := by
  refine ⟨?_, ?_, ?_, rfl⟩
  · cases p with
    | all => simp [Storage.get_expenses, Spec.matchesPeriod]
    | day => rfl
    | week => rfl
    | month => rfl
    | year => rfl
  · intro hp
    cases p with
    | week => exact absurd rfl hp
    | day => exact List.sorted_insertionSort dateIdDesc _
    | month => exact List.sorted_insertionSort dateIdDesc _
    | year => exact List.sorted_insertionSort dateIdDesc _
    | all => exact List.sorted_insertionSort dateIdDesc _
  · intro hp
    cases p with
    | week => exact absurd rfl hp
    | day => exact List.perm_insertionSort dateIdDesc _
    | month =>
        show (List.insertionSort dateIdDesc (d.expenses.filter
            (fun e => decide (e.date.year = today.year ∧ e.date.month = today.month)))).Perm
          (d.expenses.filter
            (fun e => decide (e.date.month = today.month ∧ e.date.year = today.year)))
        rw [List.filter_congr
          (fun e _ => (decide_eq_decide.mpr and_comm :
            decide (e.date.year = today.year ∧ e.date.month = today.month) =
              decide (e.date.month = today.month ∧ e.date.year = today.year)))]
        exact List.perm_insertionSort dateIdDesc _
    | year => exact List.perm_insertionSort dateIdDesc _
    | all =>
        refine (List.perm_insertionSort dateIdDesc _).trans ?_
        show d.expenses.Perm (d.expenses.filter (fun x => true))
        rw [List.filter_true]

/-- Closed instance of the C2 theorem: on the concrete SQLite store the
`all` listing is sorted descending by (date, id). -/
theorem c2_listing_order_witness :
    (Database.get_expenses exToday exDb Period.all).Sorted dateIdDesc :=
  (c2_listing_order exToday exStorage exDb Period.all).2.1 (by decide)

/-- C4 (behaviour at the failing input): the JSON backend's `week` filter
selects exactly the 0–7 day backward window (universally, and concretely it
keeps today's expense and drops an out-of-window one), but the SQLite
backend diverges: `Database.get_expenses` always returns the empty list for
`week` (its week branch raises internally and the handler returns `[]`), and
`Database.get_category_stats` applies no date filter at all for `week` — it
equals the unfiltered `all` statistics and counts the 2024-01-01 expense,
which is far outside the window of 2024-05-15. -/
theorem c4_week_window_divergence :
    (∀ (today : Date) (s : StorageData),
      Storage.get_expenses today s Period.week =
        s.expenses.filter (Spec.matchesPeriod today Period.week)) ∧
    Storage.get_expenses exToday exStorage Period.week = [exExpenseToday] ∧
    (∀ (today : Date) (d : DbData),
      Database.get_expenses today d Period.week = []) ∧
    Database.get_category_stats exToday exDb Period.week =
      Database.get_category_stats exToday exDb Period.all ∧
    (Database.get_category_stats exToday exDb Period.week).map
      StatRow.total_amount = [150] := by
  refine ⟨fun _ _ => rfl, by decide, fun _ _ => rfl, rfl, ?_⟩
  simp +decide [Database.get_category_stats, Database.statsDatePred, exDb, exExpenseJan,
    exExpenseToday, exToday, initialCategories, List.insertionSort, List.orderedInsert,
    totalDesc]
  norm_num

/-- C7: a successful `add_expense` appends exactly one record carrying the
given fields and the id `next_id`; the `all` listing afterwards is the old
list plus that record; under the invariant that every stored id is below
`next_id` (true of the initial store and preserved here), the new id is
strictly greater than every previously assigned id. -/
theorem c7_add_then_list (today : Date) (s : StorageData) (cid : Int)
    (amt : Rat) (desc : String) (dt : Date)
    (h : ∀ e ∈ s.expenses, e.id < s.next_id) :
    (Storage.add_expense today s cid amt desc (some dt) Storage.WriteOutcome.ok).2
        = true ∧
    Storage.get_expenses today
        (Storage.add_expense today s cid amt desc (some dt)
          Storage.WriteOutcome.ok).1 Period.all =
      s.expenses ++ [⟨s.next_id, cid, amt, desc, dt⟩] ∧
    (∀ e ∈ s.expenses, e.id < (⟨s.next_id, cid, amt, desc, dt⟩ : Expense).id) ∧
    (∀ e ∈ (Storage.add_expense today s cid amt desc (some dt)
        Storage.WriteOutcome.ok).1.expenses,
      e.id < (Storage.add_expense today s cid amt desc (some dt)
        Storage.WriteOutcome.ok).1.next_id) := by
  refine ⟨rfl, rfl, h, ?_⟩
  intro e he
  simp only [Storage.add_expense, Storage.save_data, Option.getD,
    Bool.false_eq_true, if_false, List.mem_append, List.mem_singleton] at he ⊢
  rcases he with he | rfl
  · exact lt_trans (h e he) (by omega)
  · show s.next_id < s.next_id + 1
    omega

/-- Closed instance of the C7 theorem: adding to the freshly initialised
store yields exactly one record with id 1. -/
theorem c7_add_then_list_witness :
    Storage.get_expenses exToday
        (Storage.add_expense exToday initialStorageData 1 100 "x" (some exToday)
          Storage.WriteOutcome.ok).1 Period.all =
      [⟨1, 1, 100, "x", exToday⟩] := by
  simpa using
    (c7_add_then_list exToday initialStorageData 1 100 "x" exToday
      (by simp [initialStorageData])).2.1

/-- Updating an entry of the accumulator dictionary does not change its key
set. -/
theorem dictAdd_any (d : List (Int × ReportGenerator.CatAcc)) (ke : Int)
    (amt : Rat) (k : Int) :
    ((ReportGenerator.dictAdd d ke amt).any (fun p => p.1 = k)) =
      d.any (fun p => p.1 = k) := by
  induction d with
  | nil => rfl
  | cons p ps ih =>
      simp only [ReportGenerator.dictAdd, List.map_cons, List.any_cons] at ih ⊢
      rw [ih]
      by_cases hp : p.1 = ke <;> simp [hp]

/-- Overwriting the value at a present key does not change the key set. -/
theorem map_overwrite_any (d : List (Int × ReportGenerator.CatAcc))
    (ke k : Int) (v : ReportGenerator.CatAcc) :
    ((d.map (fun p => if p.1 = ke then (p.1, v) else p)).any (fun p => p.1 = k)) =
      d.any (fun p => p.1 = k) := by
  induction d with
  | nil => rfl
  | cons p ps ih => by_cases hp : p.1 = ke <;> simp [hp, ih]

/-- Dictionary insertion adds exactly the inserted key to the key set. -/
theorem dictInsert_any (d : List (Int × ReportGenerator.CatAcc)) (ke : Int)
    (v : ReportGenerator.CatAcc) (k : Int) :
    ((ReportGenerator.dictInsert d ke v).any (fun p => p.1 = k)) =
      (d.any (fun p => p.1 = k) || decide (ke = k)) := by
  unfold ReportGenerator.dictInsert
  split
  next h =>
    rw [map_overwrite_any]
    by_cases hk : ke = k
    · subst hk
      simp [h]
    · simp [hk]
  next h =>
    simp [List.any_append]

/-- One expense-loop step does not change the key set. -/
theorem expenseStep_any (d : List (Int × ReportGenerator.CatAcc)) (e : Expense)
    (k : Int) :
    ((ReportGenerator.expenseStep d e).any (fun p => p.1 = k)) =
      d.any (fun p => p.1 = k) := by
  unfold ReportGenerator.expenseStep
  split
  · exact dictAdd_any d e.category_id e.amount k
  · rfl

/-- The whole expense loop does not change the key set. -/
theorem expFold_any (es : List Expense) (d : List (Int × ReportGenerator.CatAcc))
    (k : Int) :
    ((es.foldl ReportGenerator.expenseStep d).any (fun p => p.1 = k)) =
      d.any (fun p => p.1 = k) := by
  induction es generalizing d with
  | nil => rfl
  | cons e es ih => rw [List.foldl_cons, ih, expenseStep_any]

/-- After the category-initialisation loop the key set is the initial key set
plus the category ids. -/
theorem catFold_any (cats : List Category)
    (d : List (Int × ReportGenerator.CatAcc)) (k : Int) :
    ((cats.foldl ReportGenerator.categoryStep d).any (fun p => p.1 = k)) =
      (d.any (fun p => p.1 = k) || cats.any (fun c => decide (c.id = k))) := by
  induction cats generalizing d with
  | nil => simp
  | cons c cs ih =>
      rw [List.foldl_cons, ih,
        show ReportGenerator.categoryStep d c =
          ReportGenerator.dictInsert d c.id ⟨0, c.name, 0⟩ from rfl,
        dictInsert_any]
      simp [Bool.or_assoc]

/-- An expense whose category id is not a key of the accumulator is skipped
by one expense-loop step. -/
theorem expenseStep_skip (d : List (Int × ReportGenerator.CatAcc)) (e : Expense)
    (h : d.any (fun p => p.1 = e.category_id) = false) :
    ReportGenerator.expenseStep d e = d := by
  unfold ReportGenerator.expenseStep
  rw [if_neg (by simp [h])]

/-- An expense whose category id is not a key of the accumulator is skipped
by the report loops. -/
theorem reportTotals_append_unmatched (es : List Expense) (cats : List Category)
    (e : Expense)
    (h : cats.any (fun c => decide (c.id = e.category_id)) = false) :
    ReportGenerator.reportTotals (es ++ [e]) cats =
      ReportGenerator.reportTotals es cats := by
  unfold ReportGenerator.reportTotals
  rw [List.foldl_append]
  simp only [List.foldl_cons, List.foldl_nil]
  apply expenseStep_skip
  rw [expFold_any, catFold_any]
  simp [h]

/-- C10: an expense whose `category_id` matches no stored category is
silently excluded from the generated report — appending it to the expense
list leaves the whole report (its `total_expenses` and its `categories`
entries) unchanged, and no error is signalled (the generator is total). -/
theorem c10_unknown_category_silently_excluded (es : List Expense)
    (cats : List Category) (p : Period) (e : Expense)
    (h : ∀ c ∈ cats, c.id ≠ e.category_id) :
    ReportGenerator.generate_category_report (es ++ [e]) cats p =
      ReportGenerator.generate_category_report es cats p := by
  simp only [ReportGenerator.generate_category_report]
  rw [reportTotals_append_unmatched es cats e (by simpa using h)]

/-- Closed instance of the C10 theorem: an expense with the unknown category
id 7 leaves the report over the seeded categories unchanged. -/
theorem c10_unknown_category_witness :
    ReportGenerator.generate_category_report ([] ++ [⟨1, 7, 5, "stray", exToday⟩])
        initialCategories Period.all =
      ReportGenerator.generate_category_report [] initialCategories Period.all :=
  c10_unknown_category_silently_excluded [] initialCategories Period.all
    ⟨1, 7, 5, "stray", exToday⟩ (by decide)

/-- The key set of the category-keyed accumulator list built from a
category list. -/
theorem any_key_map_pairs (cats : List Category)
    (g : Category → ReportGenerator.CatAcc) (k : Int) :
    ((cats.map (fun c => (c.id, g c))).any (fun p => p.1 = k)) =
      cats.any (fun c => decide (c.id = k)) := by
  induction cats with
  | nil => rfl
  | cons c cs ih => simp [ih]

/-- Initialising the categories into an accumulator with fresh, pairwise
distinct keys appends one zero entry per category, in order. -/
theorem catFold_eq_append (cats : List Category) :
    ∀ d : List (Int × ReportGenerator.CatAcc),
      (cats.map Category.id).Nodup →
      (∀ c ∈ cats, d.any (fun p => p.1 = c.id) = false) →
      cats.foldl ReportGenerator.categoryStep d =
        d ++ cats.map (fun c => (c.id, (⟨0, c.name, 0⟩ : ReportGenerator.CatAcc))) := by
  induction cats with
  | nil => intro d _ _; simp
  | cons c cs ih =>
      intro d hnd hdisj
      have hc : d.any (fun p => p.1 = c.id) = false := hdisj c (by simp)
      have hstep : ReportGenerator.categoryStep d c =
          d ++ [(c.id, (⟨0, c.name, 0⟩ : ReportGenerator.CatAcc))] := by
        unfold ReportGenerator.categoryStep ReportGenerator.dictInsert
        rw [if_neg (by simp [hc])]
      have hhead : c.id ∉ cs.map Category.id ∧ (cs.map Category.id).Nodup := by
        simpa [List.nodup_cons] using hnd
      rw [List.foldl_cons, hstep,
        ih (d ++ [(c.id, (⟨0, c.name, 0⟩ : ReportGenerator.CatAcc))]) hhead.2 ?_]
      · simp
      · intro c' hc'
        rw [List.any_append]
        have h1 : d.any (fun p => p.1 = c'.id) = false :=
          hdisj c' (List.mem_cons_of_mem c hc')
        have h2 : ¬(c.id = c'.id) := fun hEq =>
          hhead.1 (hEq ▸ List.mem_map_of_mem Category.id hc')
        simp [h1, h2]

/-- Evaluating the repeated accumulation step: it adds the sum of the
amounts and the number of the expenses. -/
theorem accAdd_eval (l : List Expense) :
    ∀ a : ReportGenerator.CatAcc,
      ReportGenerator.accAdd a l =
        ⟨a.amount + (l.map (fun e => e.amount)).sum, a.name, a.count + l.length⟩ := by
  induction l with
  | nil => intro a; simp [ReportGenerator.accAdd]
  | cons e l ih =>
      intro a
      rw [show ReportGenerator.accAdd a (e :: l) =
        ReportGenerator.accAdd ⟨a.amount + e.amount, a.name, a.count + 1⟩ l from rfl, ih]
      simp [ReportGenerator.CatAcc.mk.injEq, add_assoc, add_comm, add_left_comm]

/-- Folding the expense loop over a category-keyed accumulator updates each
category's entry with exactly its matching expenses. -/
theorem expFold_map (es : List Expense) (cats : List Category) :
    ∀ g : Category → ReportGenerator.CatAcc,
      es.foldl ReportGenerator.expenseStep (cats.map (fun c => (c.id, g c))) =
        cats.map (fun c => (c.id,
          ReportGenerator.accAdd (g c)
            (es.filter (fun e => decide (e.category_id = c.id))))) := by
  induction es with
  | nil =>
      intro g
      simp only [List.foldl_nil, List.filter_nil]
      rfl
  | cons e es ih =>
      intro g
      rw [List.foldl_cons,
        show ReportGenerator.expenseStep (cats.map (fun c => (c.id, g c))) e =
          (if (cats.map (fun c => (c.id, g c))).any (fun p => p.1 = e.category_id)
            then ReportGenerator.dictAdd (cats.map (fun c => (c.id, g c)))
              e.category_id e.amount
            else cats.map (fun c => (c.id, g c))) from rfl,
        any_key_map_pairs]
      by_cases hmem : cats.any (fun c => decide (c.id = e.category_id)) = true
      · rw [if_pos hmem]
        have hstep : ReportGenerator.dictAdd (cats.map (fun c => (c.id, g c)))
            e.category_id e.amount =
            cats.map (fun c => (c.id,
              if c.id = e.category_id
              then (⟨(g c).amount + e.amount, (g c).name, (g c).count + 1⟩ :
                ReportGenerator.CatAcc)
              else g c)) := by
          unfold ReportGenerator.dictAdd
          rw [List.map_map]
          exact List.map_congr_left
            (fun c _ => by by_cases hc : c.id = e.category_id <;> simp [hc])
        rw [hstep, ih]
        apply List.map_congr_left
        intro c _
        by_cases hc : c.id = e.category_id
        · have hfc : List.filter (fun e' => decide (e'.category_id = c.id)) (e :: es) =
              e :: List.filter (fun e' => decide (e'.category_id = c.id)) es := by
            rw [List.filter_cons,
              if_pos (by simp only [decide_eq_true_eq]; exact hc.symm)]
          rw [hfc, if_pos hc]
          rfl
        · have hfc : List.filter (fun e' => decide (e'.category_id = c.id)) (e :: es) =
              List.filter (fun e' => decide (e'.category_id = c.id)) es := by
            rw [List.filter_cons,
              if_neg (by simp only [decide_eq_true_eq]; exact fun hEq => hc hEq.symm)]
          rw [hfc, if_neg hc]
      · rw [if_neg hmem, ih]
        apply List.map_congr_left
        intro c hcmem
        have hc : ¬(c.id = e.category_id) := by
          intro hEq
          exact hmem (List.any_eq_true.mpr ⟨c, hcmem, by simp [hEq]⟩)
        have hfc : List.filter (fun e' => decide (e'.category_id = c.id)) (e :: es) =
            List.filter (fun e' => decide (e'.category_id = c.id)) es := by
          rw [List.filter_cons,
            if_neg (by simp only [decide_eq_true_eq]; exact fun hEq => hc hEq.symm)]
        rw [hfc]

/-- The accumulator after both report loops, for pairwise distinct category
ids: one entry per category, in stored order, holding the amount-sum and
count of its matching expenses. -/
theorem reportTotals_eq (es : List Expense) (cats : List Category)
    (hnd : (cats.map Category.id).Nodup) :
    ReportGenerator.reportTotals es cats =
      cats.map (fun c => (c.id,
        (⟨((es.filter (fun e => decide (e.category_id = c.id))).map
            (fun e => e.amount)).sum,
          c.name,
          (es.filter (fun e => decide (e.category_id = c.id))).length⟩ :
          ReportGenerator.CatAcc))) := by
  unfold ReportGenerator.reportTotals
  rw [catFold_eq_append cats [] hnd (fun _ _ => rfl), List.nil_append,
    show cats.map (fun c => (c.id, (⟨0, c.name, 0⟩ : ReportGenerator.CatAcc))) =
      cats.map (fun c => (c.id, (fun c : Category =>
        (⟨0, c.name, 0⟩ : ReportGenerator.CatAcc)) c)) from rfl,
    expFold_map]
  apply List.map_congr_left
  intro c _
  rw [accAdd_eval]
  simp

/-- Summing a per-category map in which exactly one category (by key
distinctness) carries an extra summand extracts that summand. -/
theorem sum_single_key (cats : List Category) (k : Int) (x : Rat)
    (g : Category → Rat) :
    (cats.map Category.id).Nodup → (∃ c ∈ cats, c.id = k) →
    (cats.map (fun c => if c.id = k then x + g c else g c)).sum =
      x + (cats.map g).sum := by
  induction cats with
  | nil => intro _ hmem; simp at hmem
  | cons c cs ih =>
      intro hnd hmem
      have hhead : c.id ∉ cs.map Category.id ∧ (cs.map Category.id).Nodup := by
        simpa [List.nodup_cons] using hnd
      by_cases hc : c.id = k
      · have htail : (cs.map (fun c' => if c'.id = k then x + g c' else g c')).sum =
            (cs.map g).sum := by
          apply congrArg List.sum
          apply List.map_congr_left
          intro c' hc'
          rw [if_neg]
          intro hEq
          exact hhead.1 (hc ▸ hEq ▸ List.mem_map_of_mem Category.id hc')
        simp only [List.map_cons, List.sum_cons, if_pos hc, htail]
        ring
      · have hmem' : ∃ c' ∈ cs, c'.id = k := by
          rcases hmem with ⟨c', hmem', hk⟩
          rcases List.mem_cons.mp hmem' with rfl | h'
          · exact absurd hk hc
          · exact ⟨c', h', hk⟩
        simp only [List.map_cons, List.sum_cons, if_neg hc, ih hhead.2 hmem']
        ring

/-- Grouping by category and summing per group gives the total sum when
category ids are pairwise distinct and every expense references one of
them. -/
theorem sum_partition (cats : List Category) (es : List Expense)
    (hnd : (cats.map Category.id).Nodup)
    (href : ∀ e ∈ es, ∃ c ∈ cats, c.id = e.category_id) :
    (cats.map (fun c =>
        ((es.filter (fun e => decide (e.category_id = c.id))).map
          (fun e => e.amount)).sum)).sum
      = (es.map (fun e => e.amount)).sum := by
  induction es with
  | nil => simp
  | cons e es ih =>
      have href' : ∀ e' ∈ es, ∃ c ∈ cats, c.id = e'.category_id :=
        fun e' h' => href e' (List.mem_cons_of_mem _ h')
      have hmem : ∃ c ∈ cats, c.id = e.category_id := href e (List.mem_cons_self _ _)
      have hterm : ∀ c ∈ cats,
          (((e :: es).filter (fun e' => decide (e'.category_id = c.id))).map
            (fun e' => e'.amount)).sum
            = (if c.id = e.category_id
                then e.amount + ((es.filter (fun e' => decide (e'.category_id = c.id))).map
                  (fun e' => e'.amount)).sum
                else ((es.filter (fun e' => decide (e'.category_id = c.id))).map
                  (fun e' => e'.amount)).sum) := by
        intro c _
        by_cases hc : c.id = e.category_id
        · rw [if_pos hc, List.filter_cons,
            if_pos (by simp only [decide_eq_true_eq]; exact hc.symm)]
          simp
        · rw [if_neg hc, List.filter_cons,
            if_neg (by simp only [decide_eq_true_eq]; exact fun hEq => hc hEq.symm)]
      rw [List.map_congr_left hterm,
        sum_single_key cats e.category_id e.amount _ hnd hmem, ih href']
      simp

/-- A category's filtered amount-sum is positive exactly when it has a
matching expense, provided all amounts are positive. -/
theorem pos_total_iff_hasExpense (es : List Expense) (c : Category)
    (hpos : ∀ e ∈ es, 0 < e.amount) :
    (0 < ((es.filter (fun e => decide (e.category_id = c.id))).map
        (fun e => e.amount)).sum)
      ↔ Spec.hasExpense es c = true := by
  unfold Spec.hasExpense
  constructor
  · intro hlt
    by_contra hany
    have hnil : es.filter (fun e => decide (e.category_id = c.id)) = [] := by
      rw [List.filter_eq_nil_iff]
      intro a ha
      simp only [decide_eq_true_eq]
      intro hEq
      exact hany (List.any_eq_true.mpr ⟨a, ha, by simp [hEq]⟩)
    rw [hnil] at hlt
    simp at hlt
  · intro hany
    rcases List.any_eq_true.mp hany with ⟨e, he, hpred⟩
    apply List.sum_pos
    · intro x hx
      rcases List.mem_map.mp hx with ⟨e', he', rfl⟩
      exact hpos e' (List.mem_filter.mp he').1
    · have hmem : e ∈ es.filter (fun e => decide (e.category_id = c.id)) :=
        List.mem_filter.mpr ⟨he, hpred⟩
      intro hnil
      rw [List.map_eq_nil_iff] at hnil
      rw [hnil] at hmem
      exact absurd hmem (List.not_mem_nil e)

/-- Restricting a per-category sum to the categories with a matching expense
loses nothing: the other categories contribute zero. -/
theorem sum_filter_hasExpense (cats : List Category) (es : List Expense) :
    ((cats.filter (Spec.hasExpense es)).map (fun c =>
        ((es.filter (fun e => decide (e.category_id = c.id))).map
          (fun e => e.amount)).sum)).sum =
      (cats.map (fun c =>
        ((es.filter (fun e => decide (e.category_id = c.id))).map
          (fun e => e.amount)).sum)).sum := by
  induction cats with
  | nil => rfl
  | cons c cs ih =>
      rw [List.filter_cons]
      by_cases hc : Spec.hasExpense es c = true
      · rw [if_pos (by simp [hc])]
        simp only [List.map_cons, List.sum_cons, ih]
      · have hzero : es.filter (fun e => decide (e.category_id = c.id)) = [] := by
          rw [List.filter_eq_nil_iff]
          intro a ha
          simp only [decide_eq_true_eq]
          intro hEq
          have : Spec.hasExpense es c = true := by
            unfold Spec.hasExpense
            exact List.any_eq_true.mpr ⟨a, ha, by simp [hEq]⟩
          exact hc this
        rw [if_neg (by simp [hc])]
        simp only [List.map_cons, List.sum_cons, ih, hzero]
        simp

/-- The `all`-period category statistics are the sorted positive-total rows
of the per-category group-by-sum. -/
theorem stats_all_shape (today : Date) (d : DbData) :
    Database.get_category_stats today d Period.all =
      List.insertionSort totalDesc
        ((d.categories.map (Spec.statRow d.expenses)).filter
          (fun r => decide (0 < r.total_amount))) := by
  simp only [Database.get_category_stats]
  congr 1
  congr 1
  apply List.map_congr_left
  intro c _
  simp [Database.statsDatePred, Spec.statRow]

/-- A category's positive-total test coincides with its has-a-matching-
expense test when all amounts are positive. -/
theorem decide_pos_sum_eq_hasExpense (es : List Expense) (c : Category)
    (hpos : ∀ e ∈ es, 0 < e.amount) :
    decide (0 < ((es.filter (fun e => decide (e.category_id = c.id))).map
        (fun e => e.amount)).sum) = Spec.hasExpense es c := by
  have hiff := pos_total_iff_hasExpense es c hpos
  by_cases hb : Spec.hasExpense es c = true
  · rw [hb, decide_eq_true_eq]
    exact hiff.mpr hb
  · have hb' : Spec.hasExpense es c = false := by
      cases hfe : Spec.hasExpense es c
      · rfl
      · exact absurd hfe hb
    rw [hb', decide_eq_false_iff_not]
    intro hlt
    exact hb (hiff.mp hlt)

/-- C1 (counterexample): the aggregation inside `generate_category_report`
does not order its entries descending by total amount — with category 1
totalling 10 and category 2 totalling 20 (every expense referencing a stored
category), the report lists category 1 first. -/
theorem c1_counterexample :
    ¬ ((ReportGenerator.generate_category_report [exExpenseFood, exExpenseTransport]
        initialCategories Period.all).categories.Sorted Spec.entryAmountDesc) := by
  simp +decide [ReportGenerator.generate_category_report, ReportGenerator.reportTotals,
    ReportGenerator.categoryStep, ReportGenerator.expenseStep, ReportGenerator.dictInsert,
    ReportGenerator.dictAdd, exExpenseFood, exExpenseTransport, initialCategories,
    List.foldl_cons, List.foldl_nil, List.Sorted, Spec.entryAmountDesc]

/-- C1 (amended): for pairwise distinct category ids, every expense
referencing a stored category and all amounts positive, the `all`-period
statistics of the SQLite backend are exactly the group-by-sum rows of the
categories with at least one matching expense, ordered descending by total,
and their totals sum to the sum of all expense amounts; the report generator
computes the same `total_expenses` and the same entries, but lists them in
stored category order rather than descending by total. -/
theorem c1_category_stats (today : Date) (cats : List Category) (es : List Expense)
    (hnd : (cats.map Category.id).Nodup)
    (href : ∀ e ∈ es, ∃ c ∈ cats, c.id = e.category_id)
    (hpos : ∀ e ∈ es, 0 < e.amount) :
    (Database.get_category_stats today ⟨cats, es⟩ Period.all).Perm
      ((cats.filter (Spec.hasExpense es)).map (Spec.statRow es)) ∧
    (Database.get_category_stats today ⟨cats, es⟩ Period.all).Sorted totalDesc ∧
    ((Database.get_category_stats today ⟨cats, es⟩ Period.all).map
        StatRow.total_amount).sum = (es.map (fun e => e.amount)).sum ∧
    (ReportGenerator.generate_category_report es cats Period.all).total_expenses
      = (es.map (fun e => e.amount)).sum ∧
    (ReportGenerator.generate_category_report es cats Period.all).categories
      = (cats.filter (Spec.hasExpense es)).map (Spec.reportEntry es) := by
  have hshape : Database.get_category_stats today ⟨cats, es⟩ Period.all =
      List.insertionSort totalDesc
        ((cats.map (Spec.statRow es)).filter (fun r => decide (0 < r.total_amount))) :=
    stats_all_shape today ⟨cats, es⟩
  have hfilter : (cats.map (Spec.statRow es)).filter (fun r => decide (0 < r.total_amount)) =
      (cats.filter (Spec.hasExpense es)).map (Spec.statRow es) := by
    rw [List.filter_map]
    congr 1
    apply List.filter_congr
    intro c _
    show decide (0 < (Spec.statRow es c).total_amount) = Spec.hasExpense es c
    exact decide_pos_sum_eq_hasExpense es c hpos
  have hPerm : (Database.get_category_stats today ⟨cats, es⟩ Period.all).Perm
      ((cats.filter (Spec.hasExpense es)).map (Spec.statRow es)) := by
    rw [hshape, hfilter]
    exact List.perm_insertionSort totalDesc _
  have hSorted : (Database.get_category_stats today ⟨cats, es⟩ Period.all).Sorted totalDesc := by
    rw [hshape]
    exact List.sorted_insertionSort totalDesc _
  have hSumStats : ((Database.get_category_stats today ⟨cats, es⟩ Period.all).map
      StatRow.total_amount).sum = (es.map (fun e => e.amount)).sum := by
    rw [(hPerm.map StatRow.total_amount).sum_eq, List.map_map]
    show ((cats.filter (Spec.hasExpense es)).map (fun c =>
        ((es.filter (fun e => decide (e.category_id = c.id))).map (fun e => e.amount)).sum)).sum
      = (es.map (fun e => e.amount)).sum
    rw [sum_filter_hasExpense]
    exact sum_partition cats es hnd href
  have htotals := reportTotals_eq es cats hnd
  have hTot : (ReportGenerator.generate_category_report es cats Period.all).total_expenses
      = (es.map (fun e => e.amount)).sum := by
    show ((ReportGenerator.reportTotals es cats).map (fun q => q.2.amount)).sum = _
    rw [htotals, List.map_map]
    show (cats.map (fun c =>
        ((es.filter (fun e => decide (e.category_id = c.id))).map (fun e => e.amount)).sum)).sum = _
    exact sum_partition cats es hnd href
  have hCats : (ReportGenerator.generate_category_report es cats Period.all).categories
      = (cats.filter (Spec.hasExpense es)).map (Spec.reportEntry es) := by
    show ((ReportGenerator.reportTotals es cats).filter
        (fun q => decide (0 < q.2.amount))).map
        (fun q => (⟨q.2.name, q.2.amount, q.2.count⟩ : ReportEntry)) = _
    rw [htotals, List.filter_map, List.map_map]
    have hpred : ∀ c ∈ cats,
        ((fun q : Int × ReportGenerator.CatAcc => decide (0 < q.2.amount)) ∘
          (fun c : Category => (c.id,
            (⟨((es.filter (fun e => decide (e.category_id = c.id))).map
                (fun e => e.amount)).sum, c.name,
              (es.filter (fun e => decide (e.category_id = c.id))).length⟩ :
              ReportGenerator.CatAcc)))) c = Spec.hasExpense es c := by
      intro c _
      exact decide_pos_sum_eq_hasExpense es c hpos
    rw [List.filter_congr hpred]
    apply List.map_congr_left
    intro c _
    rfl
  exact ⟨hPerm, hSorted, hSumStats, hTot, hCats⟩

/-- Closed instance of the C1 theorem: on two expenses of amounts 10 and 20
in categories 1 and 2 over the seeded categories, the report's total is the
sum of both amounts. -/
theorem c1_category_stats_witness :
    (ReportGenerator.generate_category_report [exExpenseFood, exExpenseTransport]
        initialCategories Period.all).total_expenses =
      (([exExpenseFood, exExpenseTransport].map (fun e => e.amount)).sum) :=
  (c1_category_stats exToday initialCategories [exExpenseFood, exExpenseTransport]
    (by decide) (by decide) (by decide)).2.2.2.1

end Fintracker
